import Mathlib

/-
Verification development for usajobs_watch.py: a single-invocation
fetch / dedup / notify pipeline. The Python source is shallowly embedded:
pure functions become Lean functions, the HTTP layer and the Discord
webhook are modelled as outcome oracles (one outcome per attempt or per
delivery), and the process run is a pure function from its inputs to the
trace of externally visible events (send_discord calls and seen-file
writes) plus printed log lines.
-/

namespace USAJobsWatch

/-! ## Python value helpers

Python distinguishes a key stored with value None from a missing key, and
treats None and the empty string as falsy. Optional string values are
Option String; rendering inside an f-string turns None into the text
"None" (dict.get with a default returns the stored None when the key is
present, which is the case for every key of the record dicts this script
builds). -/

/-- Truthiness of a Python optional string: None and the empty string are falsy. -/
def truthyS : Option String → Bool
  | none => false
  | some s => s != ""

/-- Rendering of a Python optional string inside an f-string: None prints as "None". -/
def pyShow : Option String → String
  | none => "None"
  | some s => s

/-- Python `a or d` for an optional string a and a plain-string default d. -/
def pyOrStr (a : Option String) (d : String) : String :=
  match a with
  | none => d
  | some s => if s = "" then d else s

/-- Python character-based slicing s[:n]. -/
def strTake (s : String) (n : Nat) : String :=
  String.mk (s.data.take n)

/-! ## hashlib.sha256 model

The source computes hashlib.sha256(key.encode("utf-8")).hexdigest()[:24].
SHA-256 is embedded per FIPS 180-4 over lists of byte values (Nat, kept
below 2^32 by explicit reduction), with structural (fuel-based) recursion
everywhere so concrete hashes evaluate inside the kernel. -/

/-- Reduce a value to a 32-bit word. -/
def w32 (x : Nat) : Nat := x % 4294967296

/-- Rotate a 32-bit word right by n bits. -/
def rotr (n x : Nat) : Nat := w32 ((x >>> n) ||| (x <<< (32 - n)))

/-- Bitwise complement of a 32-bit word. -/
def bnot32 (x : Nat) : Nat := x ^^^ 4294967295

def shaCh (e f g : Nat) : Nat := (e &&& f) ^^^ (bnot32 e &&& g)

def shaMaj (a b c : Nat) : Nat := (a &&& b) ^^^ (a &&& c) ^^^ (b &&& c)

def bigSigma0 (a : Nat) : Nat := rotr 2 a ^^^ rotr 13 a ^^^ rotr 22 a

def bigSigma1 (e : Nat) : Nat := rotr 6 e ^^^ rotr 11 e ^^^ rotr 25 e

def smallSigma0 (x : Nat) : Nat := rotr 7 x ^^^ rotr 18 x ^^^ (x >>> 3)

def smallSigma1 (x : Nat) : Nat := rotr 17 x ^^^ rotr 19 x ^^^ (x >>> 10)

/-- The 64 SHA-256 round constants. -/
def sha256K : List Nat :=
  [1116352408, 1899447441, 3049323471, 3921009573, 961987163,
   1508970993, 2453635748, 2870763221, 3624381080, 310598401,
   607225278, 1426881987, 1925078388, 2162078206, 2614888103,
   3248222580, 3835390401, 4022224774, 264347078, 604807628,
   770255983, 1249150122, 1555081692, 1996064986, 2554220882,
   2821834349, 2952996808, 3210313671, 3336571891, 3584528711,
   113926993, 338241895, 666307205, 773529912, 1294757372,
   1396182291, 1695183700, 1986661051, 2177026350, 2456956037,
   2730485921, 2820302411, 3259730800, 3345764771, 3516065817,
   3600352804, 4094571909, 275423344, 430227734, 506948616,
   659060556, 883997877, 958139571, 1322822218, 1537002063,
   1747873779, 1955562222, 2024104815, 2227730452, 2361852424,
   2428436474, 2756734187, 3204031479, 3329325298]

/-- SHA-256 working state: eight 32-bit words. -/
structure Hash8 where
  a : Nat
  b : Nat
  c : Nat
  d : Nat
  e : Nat
  f : Nat
  g : Nat
  h : Nat
deriving DecidableEq

/-- Initial SHA-256 hash value. -/
def sha256H0 : Hash8 :=
  ⟨1779033703, 3144134277, 1013904242, 2773480762,
   1359893119, 2600822924, 528734635, 1541459225⟩

/-- Merkle-Damgard padding: append 0x80, zeros to 56 mod 64, then the
bit length as eight big-endian bytes. -/
def sha256Pad (msg : List Nat) : List Nat :=
  let L := msg.length
  let zeros := (64 - ((L + 9) % 64)) % 64
  msg ++ [0x80] ++ List.replicate zeros 0 ++
    (List.range 8).map (fun i => ((L * 8) >>> (8 * (7 - i))) % 256)

/-- Group a byte list into big-endian 32-bit words, four bytes at a time. -/
def bytesToWords : List Nat → List Nat
  | b0 :: b1 :: b2 :: b3 :: rest =>
      (((b0 * 256 + b1) * 256 + b2) * 256 + b3) :: bytesToWords rest
  | _ => []

/-- Extend the 16 message words of a block to the 64-entry schedule. -/
def extendSchedule (ws : List Nat) : List Nat :=
  (List.range 48).foldl
    (fun acc _ =>
      acc ++ [w32 (smallSigma1 (acc.getD (acc.length - 2) 0) + acc.getD (acc.length - 7) 0 +
                   smallSigma0 (acc.getD (acc.length - 15) 0) + acc.getD (acc.length - 16) 0)])
    ws

/-- One SHA-256 compression round. -/
def shaRound (ws : List Nat) (st : Hash8) (i : Nat) : Hash8 :=
  let t1 := w32 (st.h + bigSigma1 st.e + shaCh st.e st.f st.g + sha256K.getD i 0 + ws.getD i 0)
  let t2 := w32 (bigSigma0 st.a + shaMaj st.a st.b st.c)
  ⟨w32 (t1 + t2), st.a, st.b, st.c, w32 (st.d + t1), st.e, st.f, st.g⟩

/-- Compress one 64-byte block into the running hash. -/
def compressBlock (h0 : Hash8) (chunk : List Nat) : Hash8 :=
  let ws := extendSchedule (bytesToWords chunk)
  let st := (List.range 64).foldl (shaRound ws) h0
  ⟨w32 (h0.a + st.a), w32 (h0.b + st.b), w32 (h0.c + st.c), w32 (h0.d + st.d),
   w32 (h0.e + st.e), w32 (h0.f + st.f), w32 (h0.g + st.g), w32 (h0.h + st.h)⟩

/-- Split a byte list into 64-byte chunks; the fuel argument keeps the
recursion structural so the kernel can evaluate it. -/
def chunk64Go : Nat → List Nat → List (List Nat)
  | 0, _ => []
  | _, [] => []
  | fuel + 1, l => l.take 64 :: chunk64Go fuel (l.drop 64)

def chunk64 (l : List Nat) : List (List Nat) := chunk64Go l.length l

/-- The SHA-256 digest of a byte string, as eight 32-bit words. -/
def sha256Words (msg : List Nat) : Hash8 :=
  (chunk64 (sha256Pad msg)).foldl compressBlock sha256H0

/-- Lower-case hex digit for a value below 16. -/
def hexDigit (n : Nat) : Char :=
  if n < 10 then Char.ofNat (48 + n) else Char.ofNat (87 + n)

/-- Eight lower-case hex characters of a 32-bit word, most significant first. -/
def wordHex (w : Nat) : List Char :=
  (List.range 8).map (fun i => hexDigit ((w >>> (4 * (7 - i))) % 16))

/-- hexdigest of the SHA-256 of a byte string: 64 lower-case hex characters. -/
def sha256HexChars (msg : List Nat) : List Char :=
  let d := sha256Words msg
  wordHex d.a ++ wordHex d.b ++ wordHex d.c ++ wordHex d.d ++
  wordHex d.e ++ wordHex d.f ++ wordHex d.g ++ wordHex d.h

/-- UTF-8 encoding of one character, as byte values. -/
def utf8Char (c : Char) : List Nat :=
  let n := c.toNat
  if n < 128 then [n]
  else if n < 2048 then [192 ||| (n >>> 6), 128 ||| (n &&& 63)]
  else if n < 65536 then [224 ||| (n >>> 12), 128 ||| ((n >>> 6) &&& 63), 128 ||| (n &&& 63)]
  else [240 ||| (n >>> 18), 128 ||| ((n >>> 12) &&& 63), 128 ||| ((n >>> 6) &&& 63), 128 ||| (n &&& 63)]

/-- Model of str.encode("utf-8"). -/
def utf8Encode (s : String) : List Nat :=
  (s.data.map utf8Char).flatten

/-! ## Data model

Structures mirror exactly the JSON fields the script reads. An Option
field is None-or-missing (both read back as None through dict.get, and
the script builds its record dicts with dict.get without defaults). -/

/-- One entry of MatchedObjectDescriptor.JobGrade; the script reads g.get("Code"). -/
structure GradeObj where
  Code : Option String
deriving DecidableEq

/-- One entry of a list-valued PositionLocationDisplay; the script reads
loc.get("LocationName", "") on each dict element. -/
structure LocObj where
  LocationName : Option String
deriving DecidableEq

/-- PositionLocationDisplay is either absent/None, a plain string, or a
list of location dicts (non-dict list elements, which the script filters
with isinstance, are not modelled). -/
inductive LocDisplay where
  | missing
  | str (s : String)
  | objs (l : List LocObj)
deriving DecidableEq

/-- The fields of MatchedObjectDescriptor that the script reads. -/
structure Descriptor where
  PositionTitle : Option String
  OrganizationName : Option String
  PositionLocationDisplay : LocDisplay
  ApplyURI : Option (List String)
  PositionURI : Option String
  JobGrade : Option (List GradeObj)
  ApplicationCloseDate : Option String
deriving DecidableEq

/-- One SearchResultItems element. MatchedObjectDescriptor = none models
item.get("MatchedObjectDescriptor", {}) being falsy (absent, None or an
empty dict), which the loop skips with `if not mo: continue`. -/
structure Item where
  MatchedObjectId : Option String
  MatchedObjectDescriptor : Option Descriptor
deriving DecidableEq

/-- SearchResult object: the script reads SearchResultItems and SearchResultCount. -/
structure SearchResultObj where
  SearchResultItems : Option (List Item)
  SearchResultCount : Option Nat
deriving DecidableEq

/-- Parsed body of a 200 response. -/
structure SearchData where
  SearchResult : Option SearchResultObj
deriving DecidableEq

/-- The light record dict run_once builds per item (lines 198-207). -/
structure Rec where
  MatchedObjectId : Option String
  PositionTitle : Option String
  OrganizationName : Option String
  PositionLocationDisplay : LocDisplay
  ApplyURI : Option (List String)
  PositionURI : Option String
  JobGrade : List (Option String)
  ApplicationCloseDate : Option String
deriving DecidableEq

/-- rec construction from an item and its (truthy) descriptor:
JobGrade becomes [g.get("Code") for g in (mo.get("JobGrade") or [])]. -/
def recOf (item : Item) (mo : Descriptor) : Rec :=
  { MatchedObjectId := item.MatchedObjectId
    PositionTitle := mo.PositionTitle
    OrganizationName := mo.OrganizationName
    PositionLocationDisplay := mo.PositionLocationDisplay
    ApplyURI := mo.ApplyURI
    PositionURI := mo.PositionURI
    JobGrade := (mo.JobGrade.getD []).map (fun g => g.Code)
    ApplicationCloseDate := mo.ApplicationCloseDate }

/-- The value stored under a fingerprint in the seen file. The uri field
is rec.get("ApplyURI") or rec.get("PositionURI"): the whole ApplyURI list
when truthy, otherwise the optional PositionURI string. -/
inductive UriVal where
  | fromList (l : List String)
  | fromOptStr (s : Option String)
deriving DecidableEq

structure SeenEntry where
  title : Option String
  first_seen : Nat
  uri : UriVal
deriving DecidableEq

/-- SeenStore: the JSON object fingerprint -> entry, as an
insertion-ordered association list (Python dict semantics). -/
abbrev SeenStore := List (String × SeenEntry)

/-- Membership test `key in seen`. -/
def seenMem (k : String) (s : SeenStore) : Bool :=
  s.any (fun p => p.1 == k)

/-- Python dict assignment seen[key] = v: overwrite in place when the key
exists, append otherwise. -/
def seenInsert (k : String) (v : SeenEntry) (s : SeenStore) : SeenStore :=
  if seenMem k s then s.map (fun p => if p.1 == k then (k, v) else p) else s ++ [(k, v)]

def seenKeys (s : SeenStore) : List String := s.map Prod.fst

/-- load_seen: the parsed file contents, with an absent or unparsable
file (modelled as none) read as the empty store. -/
def load_seen (file : Option SeenStore) : SeenStore := file.getD []

/-! ## Filesystem model for save_seen

save_seen writes the serialized store to path + ".tmp" and then
os.replace renames the temp file over the real path. The two files are
modelled by their (deserialized) contents. -/

structure FSState where
  real : Option SeenStore
  tmp : Option SeenStore
deriving DecidableEq

/-- First half of save_seen: json.dump to the temp path. -/
def writeTmp (fs : FSState) (data : SeenStore) : FSState :=
  { fs with tmp := some data }

/-- Second half of save_seen: os.replace(tmp, path). -/
def replaceTmp (fs : FSState) : FSState :=
  { real := fs.tmp, tmp := none }

/-- save_seen: temp write followed by atomic rename. -/
def save_seen (fs : FSState) (data : SeenStore) : FSState :=
  replaceTmp (writeTmp fs data)

/-! ## norm, jid, format_msg -/

/-- Python whitespace for the regex \s (ASCII part; the unicode extras are
not modelled as no claim touches them). -/
def isPySpace (c : Char) : Bool :=
  c == ' ' || c == '\t' || c == '\n' || c == '\r' || c == '\x0b' || c == '\x0c'

/-- Split into maximal non-whitespace runs. -/
def wordsAux : List Char → List Char → List (List Char)
  | [], acc => if acc.isEmpty then [] else [acc.reverse]
  | c :: cs, acc =>
      if isPySpace c then
        if acc.isEmpty then wordsAux cs [] else acc.reverse :: wordsAux cs []
      else wordsAux cs (c :: acc)

/-- Python sep.join(l). -/
def strJoin (sep : String) : List String → String
  | [] => ""
  | [x] => x
  | x :: y :: xs => x ++ sep ++ strJoin sep (y :: xs)

/-- norm: re.sub collapsing whitespace runs to single spaces, then strip;
equivalently the single-space join of the whitespace-separated words. -/
def norm (s : Option String) : String :=
  strJoin " " ((wordsAux (match s with | some t => t | none => "").data []).map String.mk)

/-- Lexicographic code-point comparison, matching Python string <. -/
def lexLt : List Char → List Char → Bool
  | [], [] => false
  | [], _ :: _ => true
  | _ :: _, [] => false
  | a :: as, b :: bs =>
      if a.toNat < b.toNat then true
      else if b.toNat < a.toNat then false
      else lexLt as bs

def strLt (a b : String) : Bool := lexLt a.data b.data

def insertSortedStr (x : String) : List String → List String
  | [] => [x]
  | y :: ys => if strLt x y then x :: y :: ys else y :: insertSortedStr x ys

def sortStrings : List String → List String
  | [] => []
  | x :: xs => insertSortedStr x (sortStrings xs)

/-- Keep-last deduplication; composed with sorting this matches Python
sorted(set(l)) on the resulting set of values. -/
def dedupStr : List String → List String
  | [] => []
  | x :: xs => if xs.contains x then dedupStr xs else x :: dedupStr xs

/-- Python sorted(set(l)) for strings. -/
def sortedSet (l : List String) : List String := sortStrings (dedupStr l)

/-- The URL resolution (rec.get("ApplyURI") or [None])[0] or rec.get("PositionURI"):
the first ApplyURI element when the list is truthy, falling back to the
optional PositionURI value when that element is falsy. -/
def resolvedURL (r : Rec) : Option String :=
  let fa : Option String :=
    match r.ApplyURI with
    | some (u :: _) => some u
    | _ => none
  if truthyS fa then fa else r.PositionURI

/-- The fingerprint key string, rendered as the f-string on line 86 renders it. -/
def jidKey (r : Rec) : String :=
  pyShow r.MatchedObjectId ++ "|" ++ pyShow r.PositionTitle ++ "|" ++ pyShow (resolvedURL r)

/-- jid: the first 24 hex characters of the SHA-256 of the key. -/
def jid (r : Rec) : String :=
  String.mk ((sha256HexChars (utf8Encode (jidKey r))).take 24)

/-- format_msg (lines 130-142). The "Untitled" / "" defaults of dict.get
are dead for records built by run_once, whose keys are always present
(possibly None): the stored optional value is rendered as Python renders
it inside an f-string. A None inside the JobGrade list would make the
Python join raise; no claim exercises that, and it is rendered like an
f-string would render None. -/
def format_msg (r : Rec) : String :=
  let title := pyShow r.PositionTitle
  let org := pyShow r.OrganizationName
  let locs :=
    match r.PositionLocationDisplay with
    | .objs l => strJoin ", " (sortedSet (l.map (fun lo => lo.LocationName.getD "")))
    | .str s => norm (some s)
    | .missing => norm (some "")
  let url := (resolvedURL r).getD ""
  let grade := strJoin ", " (r.JobGrade.map pyShow)
  let closing :=
    match r.ApplicationCloseDate with
    | some s => if s = "" then "" else " | Closes: " ++ s
    | none => ""
  "🔔 **" ++ title ++ "** (" ++ grade ++ ") @ " ++ org ++ "\n📍 " ++ locs ++ closing ++ "\n" ++ url

/-! ## send_discord

The webhook POST is modelled by a delivery outcome (response status and
body, or a transport exception). send_discord catches every exception and
only prints: it is a total function returning the printed log line. -/

inductive DeliveryOutcome where
  | resp (status : Nat) (body : String)
  | exn (msg : String)
deriving DecidableEq

/-- send_discord (lines 90-105), returning the line it prints. -/
def send_discord (wh : Option String) (out : DeliveryOutcome) (msg : String) : String :=
  if truthyS wh = false then "[Discord disabled] " ++ msg
  else
    match out with
    | .resp status body =>
        if status = 204 then "[OK] Discord accepted message (204)."
        else if 200 ≤ status ∧ status < 300 then "[OK] Discord HTTP " ++ toString status ++ "."
        else "[WARN] Discord webhook HTTP " ++ toString status ++ ": " ++ strTake body 200
    | .exn m => "[WARN] Discord send failed: " ++ m

/-- The source success condition: 204 or any 2xx. -/
def deliveryOk : DeliveryOutcome → Bool
  | .resp status _ => status == 204 || (decide (200 ≤ status) && decide (status < 300))
  | .exn _ => false

/-! ## fetch_with_retries

Each attempt of the HTTP GET is modelled by an oracle from the attempt
index (1-based) to its outcome: a 200 response with parsed body, a non-200
response, or a requests exception. The loop is embedded with a structural
fuel argument equal to the remaining attempts; the result carries the
Except value (RuntimeError on exhaustion), the number of attempts
performed, and the list of backoff sleeps in order. -/

inductive AttemptOutcome where
  | success (data : SearchData)
  | httpError (code : Nat) (text : String)
  | requestExn (msg : String)
deriving DecidableEq

def failedOutcome : AttemptOutcome → Bool
  | .success _ => false
  | _ => true

/-- The last_err string recorded for a failed attempt. -/
def errOf : AttemptOutcome → String
  | .httpError code text => "HTTP " ++ toString code ++ ": " ++ strTake text 200
  | .requestExn m => m
  | .success _ => ""

structure FetchOut where
  result : Except String SearchData
  attemptsMade : Nat
  sleeps : List Nat

/-- The attempt loop of fetch_with_retries: remaining is attempts + 1 - i. -/
def fetchGo (oracle : Nat → AttemptOutcome) (attempts backoff : Nat) :
    Nat → Nat → Option String → List Nat → FetchOut
  | 0, _, lastErr, sleeps =>
      { result := .error (pyOrStr lastErr "Unknown fetch error"),
        attemptsMade := attempts, sleeps := sleeps }
  | remaining + 1, i, _lastErr, sleeps =>
      match oracle i with
      | .success d => { result := .ok d, attemptsMade := i, sleeps := sleeps }
      | .httpError code text =>
          fetchGo oracle attempts backoff remaining (i + 1)
            (some (errOf (.httpError code text)))
            (sleeps ++ if i < attempts then [backoff * 2 ^ (i - 1)] else [])
      | .requestExn m =>
          fetchGo oracle attempts backoff remaining (i + 1)
            (some m)
            (sleeps ++ if i < attempts then [backoff * 2 ^ (i - 1)] else [])

/-- fetch_with_retries (lines 108-127). -/
def fetch_with_retries (oracle : Nat → AttemptOutcome) (attempts backoff : Nat) : FetchOut :=
  fetchGo oracle attempts backoff attempts 1 none []

/-! ## Time gate -/

/-- The local hour of an epoch instant in a zone whose UTC offset at that
instant (supplied by the zoneinfo database, which is external) is given in
seconds. -/
def localHour (offset : Int) (now : Int) : Int :=
  ((now + offset).ediv 3600).emod 24

/-- guard_local_8pm (lines 145-149): true only when the
America/Los_Angeles local hour is 20. offsetAt models
ZoneInfo("America/Los_Angeles") as the UTC offset at each instant. -/
def guard_local_8pm (offsetAt : Int → Int) (now : Int) : Bool :=
  localHour (offsetAt now) now == 20

/-! ## run_once -/

/-- Configuration: the environment-derived values and the module
constants of the source (NOTIFY_* are literally True there,
RETRY_ATTEMPTS = 3, RETRY_BACKOFF = 5, ENFORCE_LOCAL_8PM defaults on). -/
structure Config where
  userAgent : Option String
  apiKey : Option String
  discordWh : Option String
  notifyFetchFailure : Bool
  notifyZeroResults : Bool
  notifyNoNewItems : Bool
  retryAttempts : Nat
  retryBackoff : Nat
  enforceLocal8pm : Bool
deriving DecidableEq

/-- The Config carrying the source constants. -/
def sourceConfig (ua key wh : Option String) (enforce : Bool) : Config :=
  { userAgent := ua, apiKey := key, discordWh := wh,
    notifyFetchFailure := true, notifyZeroResults := true, notifyNoNewItems := true,
    retryAttempts := 3, retryBackoff := 5, enforceLocal8pm := enforce }

/-- Externally visible events of a run, in order: a send_discord call
with its message, the load_seen call, and a save_seen call with the store
it persists. -/
inductive Event where
  | notify (msg : String)
  | load
  | save (store : SeenStore)
deriving DecidableEq

def isSave : Event → Bool
  | .save _ => true
  | _ => false

structure RunResult where
  events : List Event
  logs : List String
  newCount : Nat
deriving DecidableEq

/-- items = (sr.get("SearchResultItems", []) or []). -/
def itemsOf (d : SearchData) : List Item :=
  match d.SearchResult with
  | some sr => sr.SearchResultItems.getD []
  | none => []

/-- total = sr.get("SearchResultCount", len(items)). -/
def totalOf (d : SearchData) : Nat :=
  match d.SearchResult with
  | some sr => sr.SearchResultCount.getD (sr.SearchResultItems.getD []).length
  | none => 0

/-- The seen-file value stored for a newly accepted record (lines 213-217). -/
def seenEntryOf (r : Rec) (now : Nat) : SeenEntry :=
  { title := r.PositionTitle
    first_seen := now
    uri :=
      match r.ApplyURI with
      | some (u :: us) => .fromList (u :: us)
      | _ => .fromOptStr r.PositionURI }

/-- State of the dedup loop: accepted postings in order, the seen dict,
and new_count. -/
structure LoopState where
  accepted : List (String × Rec)
  seen : SeenStore
  newCount : Nat
deriving DecidableEq

/-- One iteration of the for-loop of run_once (lines 194-218). -/
def stepItem (now : Nat) (st : LoopState) (item : Item) : LoopState :=
  match item.MatchedObjectDescriptor with
  | none => st
  | some mo =>
      let r := recOf item mo
      let key := jid r
      if seenMem key st.seen then st
      else
        { accepted := st.accepted ++ [(key, r)],
          seen := seenInsert key (seenEntryOf r now) st.seen,
          newCount := st.newCount + 1 }

/-- The whole dedup loop over the items. -/
def processItems (items : List Item) (seen0 : SeenStore) (now : Nat) : LoopState :=
  items.foldl (stepItem now) ⟨[], seen0, 0⟩

def credsMsg : String :=
  "❌ USAJOBS credentials missing: set USAJOBS_USER_AGENT and USAJOBS_API_KEY."

def fetchFailHead : String := "🚨 USAJOBS fetch failed after retries: "

def zeroResultsMsg : String :=
  "ℹ️ No results for USAJOBS query today (Series 1176/1173, 92055±25mi, GS09–GS12)."

def noNewMsg : String := "🟦 No new items today (matches exist, but already seen)."

/-- run_once (lines 152-228). seenFile is the parsed contents of the seen
file (none when absent or corrupt); delivery gives the outcome of the
n-th webhook POST of the run; now models int(time.time()). The query
constants BASE, PARAMS and HEADERS only shape the external HTTP request,
which the attempt oracle abstracts. -/
def run_once (cfg : Config) (oracle : Nat → AttemptOutcome) (seenFile : Option SeenStore)
    (now : Nat) (delivery : Nat → DeliveryOutcome) : RunResult :=
  if truthyS cfg.userAgent = false ∨ truthyS cfg.apiKey = false then
    { events := [.notify credsMsg],
      logs := [credsMsg, send_discord cfg.discordWh (delivery 0) credsMsg],
      newCount := 0 }
  else
    match (fetch_with_retries oracle cfg.retryAttempts cfg.retryBackoff).result with
    | .error e =>
        { events := if cfg.notifyFetchFailure then [.notify (fetchFailHead ++ e)] else [],
          logs := [fetchFailHead ++ e] ++
            (if cfg.notifyFetchFailure then
              [send_discord cfg.discordWh (delivery 0) (fetchFailHead ++ e)] else []),
          newCount := 0 }
    | .ok data =>
        let items := itemsOf data
        let total := totalOf data
        let infoLog := "[INFO] Fetched " ++ toString total ++ " results; items array length=" ++
          toString items.length ++ "."
        if total = 0 ∨ items.length = 0 then
          { events := if cfg.notifyZeroResults then [.notify zeroResultsMsg] else [],
            logs := [infoLog, zeroResultsMsg] ++
              (if cfg.notifyZeroResults then
                [send_discord cfg.discordWh (delivery 0) zeroResultsMsg] else []),
            newCount := 0 }
        else
          let st := processItems items (load_seen seenFile) now
          let postNotifies := st.accepted.map (fun p => Event.notify (format_msg p.2))
          let postLogs := st.accepted.enum.map
            (fun q => send_discord cfg.discordWh (delivery q.1) (format_msg q.2.2))
          if st.newCount ≠ 0 then
            { events := Event.load :: postNotifies ++ [Event.save st.seen],
              logs := [infoLog] ++ postLogs ++
                ["[INFO] Saved " ++ toString st.newCount ++ " new items."],
              newCount := st.newCount }
          else
            { events := Event.load :: postNotifies ++
                (if cfg.notifyNoNewItems then [.notify noNewMsg] else []),
              logs := [infoLog] ++ postLogs ++ [noNewMsg] ++
                (if cfg.notifyNoNewItems then
                  [send_discord cfg.discordWh (delivery 0) noNewMsg] else []),
              newCount := st.newCount }

/-- The module entry point (lines 231-237): run only when the gate is off
or it is 8 PM in America/Los_Angeles; none models the skipped run. -/
def mainEntry (cfg : Config) (offsetAt : Int → Int) (wall : Int)
    (oracle : Nat → AttemptOutcome) (seenFile : Option SeenStore) (now : Nat)
    (delivery : Nat → DeliveryOutcome) : Option RunResult :=
  if cfg.enforceLocal8pm && !(guard_local_8pm offsetAt wall) then none
  else some (run_once cfg oracle seenFile now delivery)

/-! ## Spec-modelled filter pipeline

Modelled from the spec: the repository is described as 487 lines of
near-duplicate revisions of this script, and section 4.3 of the spec
specifies a configured inclusion filter rule (a predicate over title text
and grade codes) applied after the seen check; the single revision under
src/ carries no filter, so the filtering revision is embedded here from
the words of the spec: seen-check first, then the filter; items failing
the predicate are dropped without being marked seen; accepted items are
appended in response order and inserted with the first-seen timestamp. -/

/-- Modelled from the spec: one iteration of the filtering loop of
section 4.3, identical to stepItem except that a not-yet-seen record must
also pass filterRule before being accepted. -/
def stepItemSpec (filterRule : Rec → Bool) (now : Nat) (st : LoopState) (item : Item) :
    LoopState :=
  match item.MatchedObjectDescriptor with
  | none => st
  | some mo =>
      let r := recOf item mo
      let key := jid r
      if seenMem key st.seen then st
      else if filterRule r = false then st
      else
        { accepted := st.accepted ++ [(key, r)],
          seen := seenInsert key (seenEntryOf r now) st.seen,
          newCount := st.newCount + 1 }

/-- Modelled from the spec: processResults of section 4.3. -/
def processResultsSpec (filterRule : Rec → Bool) (items : List Item) (seen0 : SeenStore)
    (now : Nat) : LoopState :=
  items.foldl (stepItemSpec filterRule now) ⟨[], seen0, 0⟩

/-- Modelled from the spec: section 4.4, one notification per accepted
posting in order, then at most one state write, only when at least one
posting was accepted (this matches lines 211-228 of the source). -/
def notifyAndPersistSpec (st : LoopState) : List Event :=
  st.accepted.map (fun p => Event.notify (format_msg p.2)) ++
    (if st.newCount ≠ 0 then [Event.save st.seen] else [])

/-! ## Store lemmas -/

theorem seenMem_iff (k : String) (s : SeenStore) :
    seenMem k s = true ↔ k ∈ seenKeys s := by
  simp [seenMem, seenKeys, List.any_eq_true]

theorem seenInsert_of_not_mem (k : String) (v : SeenEntry) (s : SeenStore)
    (h : seenMem k s = false) : seenInsert k v s = s ++ [(k, v)] := by
  simp [seenInsert, h]

theorem seenKeys_append (s t : SeenStore) :
    seenKeys (s ++ t) = seenKeys s ++ seenKeys t := by
  simp [seenKeys]

theorem seenMem_insert_self (k : String) (v : SeenEntry) (s : SeenStore) :
    seenMem k (seenInsert k v s) = true := by
  by_cases h : seenMem k s
  · simp only [seenInsert, h, if_true]
    rw [seenMem, List.any_eq_true] at h ⊢
    obtain ⟨p, hp, he⟩ := h
    refine ⟨(k, v), List.mem_map.mpr ⟨p, hp, by simp [he]⟩, by simp⟩
  · rw [seenInsert_of_not_mem k v s (by simpa using h)]
    rw [seenMem, List.any_eq_true]
    exact ⟨(k, v), by simp⟩

theorem seenMem_insert_mono (k k' : String) (v : SeenEntry) (s : SeenStore)
    (h : seenMem k' s = true) : seenMem k' (seenInsert k v s) = true := by
  by_cases hm : seenMem k s
  · simp only [seenInsert, hm, if_true]
    rw [seenMem, List.any_eq_true] at h ⊢
    obtain ⟨p, hp, he⟩ := h
    by_cases hpk : p.1 == k
    · refine ⟨(k, v), List.mem_map.mpr ⟨p, hp, by simp [hpk]⟩, ?_⟩
      simp only [beq_iff_eq] at hpk he ⊢
      rw [← hpk, he]
    · exact ⟨p, List.mem_map.mpr ⟨p, hp, by simp [hpk]⟩, he⟩
  · rw [seenInsert_of_not_mem k v s (by simpa using hm)]
    simp only [seenMem, List.any_append] at h ⊢
    rw [h, Bool.true_or]

theorem seenMem_of_insert (k k' : String) (v : SeenEntry) (s : SeenStore)
    (h : seenMem k' (seenInsert k v s) = false) : seenMem k' s = false := by
  by_contra hc
  rw [← ne_eq, Bool.ne_false_iff] at hc
  rw [seenMem_insert_mono k k' v s hc] at h
  simp at h

theorem seenKeys_insert_of_not_mem (k : String) (v : SeenEntry) (s : SeenStore)
    (h : seenMem k s = false) : seenKeys (seenInsert k v s) = seenKeys s ++ [k] := by
  rw [seenInsert_of_not_mem k v s h, seenKeys_append]
  rfl

/-! ## Fetch loop lemmas -/

/-- The backoff sleeps of the loop from attempt i on, through n failed
attempts that each sleep. -/
def sleepsFrom (backoff : Nat) : Nat → Nat → List Nat
  | _, 0 => []
  | i, n + 1 => backoff * 2 ^ (i - 1) :: sleepsFrom backoff (i + 1) n

theorem sleepsFrom_shift (backoff : Nat) :
    ∀ n i, sleepsFrom backoff (i + 1) n = (List.range n).map (fun t => backoff * 2 ^ (i + t)) := by
  intro n
  induction n with
  | zero => intro i; rfl
  | succ n ih =>
      intro i
      show backoff * 2 ^ (i + 1 - 1) :: sleepsFrom backoff (i + 1 + 1) n = _
      rw [ih (i + 1), List.range_succ_eq_map, List.map_cons, List.map_map]
      have hhead : backoff * 2 ^ (i + 1 - 1) = backoff * 2 ^ (i + 0) := by
        have h0 : i + 1 - 1 = i + 0 := by omega
        rw [h0]
      have htail : List.map (fun t => backoff * 2 ^ (i + 1 + t)) (List.range n) =
          List.map ((fun t => backoff * 2 ^ (i + t)) ∘ Nat.succ) (List.range n) := by
        apply List.map_congr_left
        intro t _
        have h2 : i + 1 + t = i + Nat.succ t := by omega
        simp only [Function.comp_apply, h2]
      rw [hhead, htail]

theorem sleepsFrom_one (backoff n : Nat) :
    sleepsFrom backoff 1 n = (List.range n).map (fun t => backoff * 2 ^ t) := by
  have h := sleepsFrom_shift backoff n 0
  simpa using h

theorem fetchGo_firstSuccess (oracle : Nat → AttemptOutcome) (attempts backoff : Nat) :
    ∀ (n i : Nat) (lastErr : Option String) (sleeps : List Nat) (d : SearchData),
      1 ≤ i → i + n ≤ attempts →
      (∀ j, i ≤ j → j < i + n → failedOutcome (oracle j) = true) →
      oracle (i + n) = .success d →
      fetchGo oracle attempts backoff (attempts + 1 - i) i lastErr sleeps =
        { result := .ok d, attemptsMade := i + n,
          sleeps := sleeps ++ sleepsFrom backoff i n } := by
  intro n
  induction n with
  | zero =>
      intro i lastErr sleeps d hi hia _hfail hsucc
      obtain ⟨f, hf⟩ : ∃ f, attempts + 1 - i = f + 1 := ⟨attempts - i, by omega⟩
      rw [hf]
      simp only [Nat.add_zero] at hsucc
      simp [fetchGo, hsucc, sleepsFrom]
  | succ n ih =>
      intro i lastErr sleeps d hi hia hfail hsucc
      obtain ⟨f, hf⟩ : ∃ f, attempts + 1 - i = f + 1 := ⟨attempts - i, by omega⟩
      rw [hf]
      have hfi : failedOutcome (oracle i) = true := hfail i (le_refl i) (by omega)
      have hlt : i < attempts := by omega
      have hfnext : f = attempts + 1 - (i + 1) := by omega
      have hacc : i + 1 + n = i + (n + 1) := by omega
      cases hoi : oracle i with
      | success d0 => rw [hoi] at hfi; simp [failedOutcome] at hfi
      | httpError code text =>
          simp only [fetchGo, hoi, hlt, if_true]
          rw [hfnext, ih (i + 1) (some (errOf (.httpError code text)))
            (sleeps ++ [backoff * 2 ^ (i - 1)]) d (by omega) (by omega)
            (fun j hj1 hj2 => hfail j (by omega) (by omega))
            (by rw [hacc]; exact hsucc)]
          rw [hacc]
          simp [sleepsFrom]
      | requestExn m =>
          simp only [fetchGo, hoi, hlt, if_true]
          rw [hfnext, ih (i + 1) (some m)
            (sleeps ++ [backoff * 2 ^ (i - 1)]) d (by omega) (by omega)
            (fun j hj1 hj2 => hfail j (by omega) (by omega))
            (by rw [hacc]; exact hsucc)]
          rw [hacc]
          simp [sleepsFrom]

theorem fetchGo_exhaust (oracle : Nat → AttemptOutcome) (attempts backoff : Nat) :
    ∀ (n i : Nat) (lastErr : Option String) (sleeps : List Nat),
      1 ≤ i → i + n = attempts →
      (∀ j, i ≤ j → j ≤ attempts → failedOutcome (oracle j) = true) →
      fetchGo oracle attempts backoff (attempts + 1 - i) i lastErr sleeps =
        { result := .error (pyOrStr (some (errOf (oracle attempts))) "Unknown fetch error"),
          attemptsMade := attempts,
          sleeps := sleeps ++ sleepsFrom backoff i n } := by
  intro n
  induction n with
  | zero =>
      intro i lastErr sleeps hi hia hfail
      have h1 : attempts + 1 - i = 1 := by omega
      rw [h1]
      have hfi : failedOutcome (oracle i) = true := hfail i (le_refl i) (by omega)
      have hioa : i = attempts := by omega
      subst hioa
      cases hoi : oracle i with
      | success d0 => rw [hoi] at hfi; simp [failedOutcome] at hfi
      | httpError code text =>
          simp [fetchGo, hoi, sleepsFrom, errOf]
      | requestExn m =>
          simp [fetchGo, hoi, sleepsFrom, errOf]
  | succ n ih =>
      intro i lastErr sleeps hi hia hfail
      obtain ⟨f, hf⟩ : ∃ f, attempts + 1 - i = f + 1 := ⟨attempts - i, by omega⟩
      rw [hf]
      have hfi : failedOutcome (oracle i) = true := hfail i (le_refl i) (by omega)
      have hlt : i < attempts := by omega
      have hfnext : f = attempts + 1 - (i + 1) := by omega
      cases hoi : oracle i with
      | success d0 => rw [hoi] at hfi; simp [failedOutcome] at hfi
      | httpError code text =>
          simp only [fetchGo, hoi, hlt, if_true]
          rw [hfnext, ih (i + 1) (some (errOf (.httpError code text)))
            (sleeps ++ [backoff * 2 ^ (i - 1)]) (by omega) (by omega)
            (fun j hj1 hj2 => hfail j (by omega) hj2)]
          simp [sleepsFrom]
      | requestExn m =>
          simp only [fetchGo, hoi, hlt, if_true]
          rw [hfnext, ih (i + 1) (some m)
            (sleeps ++ [backoff * 2 ^ (i - 1)]) (by omega) (by omega)
            (fun j hj1 hj2 => hfail j (by omega) hj2)]
          simp [sleepsFrom]

/-- Success after exactly k - 1 failures, from attempt 1. -/
theorem fetch_succeeds_at (oracle : Nat → AttemptOutcome) (attempts backoff k : Nat)
    (d : SearchData) (hk1 : 1 ≤ k) (hk : k ≤ attempts)
    (hfail : ∀ j, 1 ≤ j → j < k → failedOutcome (oracle j) = true)
    (hsucc : oracle k = .success d) :
    fetch_with_retries oracle attempts backoff =
      { result := .ok d, attemptsMade := k,
        sleeps := (List.range (k - 1)).map (fun t => backoff * 2 ^ t) } := by
  have h := fetchGo_firstSuccess oracle attempts backoff (k - 1) 1 none [] d
    (le_refl 1) (by omega) (fun j hj1 hj2 => hfail j hj1 (by omega))
    (by rw [show 1 + (k - 1) = k by omega]; exact hsucc)
  rw [show attempts + 1 - 1 = attempts by omega] at h
  rw [fetch_with_retries, h, sleepsFrom_one]
  congr 1
  omega

/-- Exhaustion: every attempt fails. -/
theorem fetch_exhausts (oracle : Nat → AttemptOutcome) (attempts backoff : Nat)
    (ha : 1 ≤ attempts)
    (hfail : ∀ j, 1 ≤ j → j ≤ attempts → failedOutcome (oracle j) = true) :
    fetch_with_retries oracle attempts backoff =
      { result := .error (pyOrStr (some (errOf (oracle attempts))) "Unknown fetch error"),
        attemptsMade := attempts,
        sleeps := (List.range (attempts - 1)).map (fun t => backoff * 2 ^ t) } := by
  have h := fetchGo_exhaust oracle attempts backoff (attempts - 1) 1 none []
    (le_refl 1) (by omega) hfail
  rw [show attempts + 1 - 1 = attempts by omega] at h
  rw [fetch_with_retries, h, sleepsFrom_one]
  simp

/-! ## Dedup loop lemmas -/

theorem stepItem_seen_mono (now : Nat) (st : LoopState) (item : Item) (k : String)
    (h : seenMem k st.seen = true) : seenMem k (stepItem now st item).seen = true := by
  cases hmo : item.MatchedObjectDescriptor with
  | none => simpa [stepItem, hmo] using h
  | some mo =>
      by_cases hs : seenMem (jid (recOf item mo)) st.seen
      · simpa [stepItem, hmo, hs] using h
      · simp only [stepItem, hmo, hs, if_false, Bool.false_eq_true]
        exact seenMem_insert_mono _ k _ _ h

theorem foldl_seen_mono (now : Nat) :
    ∀ (items : List Item) (st : LoopState) (k : String),
      seenMem k st.seen = true →
      seenMem k (List.foldl (stepItem now) st items).seen = true := by
  intro items
  induction items with
  | nil => intro st k h; simpa using h
  | cons item rest ih =>
      intro st k h
      rw [List.foldl_cons]
      exact ih (stepItem now st item) k (stepItem_seen_mono now st item k h)

theorem foldl_covers (now : Nat) :
    ∀ (items : List Item) (st : LoopState) (item : Item) (mo : Descriptor),
      item ∈ items → item.MatchedObjectDescriptor = some mo →
      seenMem (jid (recOf item mo)) (List.foldl (stepItem now) st items).seen = true := by
  intro items
  induction items with
  | nil => intro st item mo h; exact absurd h (List.not_mem_nil item)
  | cons hd rest ih =>
      intro st item mo hmem hmo
      rw [List.foldl_cons]
      rcases List.mem_cons.mp hmem with heq | hrest
      · subst heq
        apply foldl_seen_mono
        by_cases hs : seenMem (jid (recOf item mo)) st.seen
        · simp only [stepItem, hmo, hs, if_true]
        · simp only [stepItem, hmo, hs, if_false, Bool.false_eq_true]
          exact seenMem_insert_self _ _ _
      · exact ih (stepItem now st hd) item mo hrest hmo

theorem stepItem_of_all_seen (now : Nat) (st : LoopState) (item : Item)
    (h : ∀ mo, item.MatchedObjectDescriptor = some mo →
      seenMem (jid (recOf item mo)) st.seen = true) :
    stepItem now st item = st := by
  cases hmo : item.MatchedObjectDescriptor with
  | none => simp [stepItem, hmo]
  | some mo => simp [stepItem, hmo, h mo hmo]

theorem foldl_of_all_seen (now : Nat) :
    ∀ (items : List Item) (st : LoopState),
      (∀ item ∈ items, ∀ mo, item.MatchedObjectDescriptor = some mo →
        seenMem (jid (recOf item mo)) st.seen = true) →
      List.foldl (stepItem now) st items = st := by
  intro items
  induction items with
  | nil => intro st _; rfl
  | cons hd rest ih =>
      intro st h
      rw [List.foldl_cons, stepItem_of_all_seen now st hd (h hd (List.mem_cons_self hd rest))]
      exact ih st (fun item hmem mo hmo => h item (List.mem_cons_of_mem hd hmem) mo hmo)

/-- Structure of the loop from an arbitrary state: the newly accepted
postings extend the accepted list in order, are counted by new_count, have
pairwise distinct fingerprints none of which was already in the seen
store, and their fingerprints are exactly the new keys of the store. -/
theorem foldl_struct (now : Nat) :
    ∀ (items : List Item) (st : LoopState),
      ∃ ns : List (String × Rec),
        (List.foldl (stepItem now) st items).accepted = st.accepted ++ ns ∧
        (List.foldl (stepItem now) st items).newCount = st.newCount + ns.length ∧
        seenKeys (List.foldl (stepItem now) st items).seen =
          seenKeys st.seen ++ ns.map Prod.fst ∧
        (ns.map Prod.fst).Nodup ∧
        (∀ k ∈ ns.map Prod.fst, seenMem k st.seen = false) := by
  intro items
  induction items with
  | nil =>
      intro st
      exact ⟨[], by simp, by simp, by simp, List.nodup_nil, by simp⟩
  | cons item rest ih =>
      intro st
      rw [List.foldl_cons]
      cases hmo : item.MatchedObjectDescriptor with
      | none =>
          obtain ⟨ns, h1, h2, h3, h4, h5⟩ := ih st
          refine ⟨ns, ?_, ?_, ?_, h4, h5⟩ <;> simpa [stepItem, hmo] using (by assumption)
      | some mo =>
          by_cases hs : seenMem (jid (recOf item mo)) st.seen
          · obtain ⟨ns, h1, h2, h3, h4, h5⟩ := ih st
            refine ⟨ns, ?_, ?_, ?_, h4, h5⟩ <;> simpa [stepItem, hmo, hs] using (by assumption)
          · have hsf : seenMem (jid (recOf item mo)) st.seen = false := by simpa using hs
            set key := jid (recOf item mo) with hkey
            set st' : LoopState :=
              { accepted := st.accepted ++ [(key, recOf item mo)],
                seen := seenInsert key (seenEntryOf (recOf item mo) now) st.seen,
                newCount := st.newCount + 1 } with hst'
            have hstep : stepItem now st item = st' := by
              simp [stepItem, hmo, hsf, hst', hkey]
            obtain ⟨ns, h1, h2, h3, h4, h5⟩ := ih st'
            refine ⟨(key, recOf item mo) :: ns, ?_, ?_, ?_, ?_, ?_⟩
            · rw [hstep, h1, hst']
              simp
            · rw [hstep, h2, hst']
              simp only [List.length_cons]
              omega
            · rw [hstep, h3, hst']
              simp only [List.map_cons]
              rw [seenKeys_insert_of_not_mem key _ st.seen hsf]
              simp
            · rw [List.map_cons]
              refine List.nodup_cons.mpr ⟨?_, h4⟩
              intro hmem
              have h5k := h5 key hmem
              rw [hst'] at h5k
              simp only at h5k
              rw [seenMem_insert_self key _ st.seen] at h5k
              exact Bool.noConfusion h5k
            · rw [List.map_cons]
              intro k hk
              rcases List.mem_cons.mp hk with heq | hmem
              · rw [heq]; exact hsf
              · have h5k := h5 k hmem
                rw [hst'] at h5k
                simp only at h5k
                exact seenMem_of_insert key k _ st.seen h5k

/-! ## Fingerprint length -/

theorem sha256HexChars_length (msg : List Nat) : (sha256HexChars msg).length = 64 := by
  simp [sha256HexChars, wordHex]

theorem jid_length (r : Rec) : (jid r).length = 24 := by
  rw [jid]
  show ((sha256HexChars (utf8Encode (jidKey r))).take 24).length = 24
  rw [List.length_take, sha256HexChars_length]
  omega

/-! ## Concrete fixtures used by the witnesses -/

def wDesc : Descriptor :=
  { PositionTitle := some "TitleA", OrganizationName := some "Org",
    PositionLocationDisplay := .missing, ApplyURI := none,
    PositionURI := some "posuri", JobGrade := some [⟨some "09"⟩],
    ApplicationCloseDate := none }

def wItem1 : Item := ⟨some "1001", some wDesc⟩

def wData : SearchData := ⟨some ⟨some [wItem1], some 1⟩⟩

def wCfg : Config := sourceConfig (some "me@example.org") (some "apikey") (some "hook") true

def wOracleOk : Nat → AttemptOutcome := fun _ => .success wData

def wOracleFF : Nat → AttemptOutcome :=
  fun j => if j == 3 then .success wData else .requestExn "connection reset"

def wOracleFail : Nat → AttemptOutcome := fun _ => .requestExn "boom"

def wDelivery : Nat → DeliveryOutcome := fun _ => .resp 204 ""

/-! ## Claim theorems -/

/-- C3: the fingerprint is deterministic over (identifier, title, resolved
URL): two records with identical MatchedObjectId, identical PositionTitle
and identical resolved URL (first ApplyURI element if truthy, else
PositionURI) get equal fingerprints, and every fingerprint has the same
fixed length 24. -/
theorem C3_fingerprint_deterministic (r1 r2 : Rec)
    (hid : r1.MatchedObjectId = r2.MatchedObjectId)
    (ht : r1.PositionTitle = r2.PositionTitle)
    (hu : resolvedURL r1 = resolvedURL r2) :
    jid r1 = jid r2 ∧ ∀ r : Rec, (jid r).length = 24 := by
  refine ⟨?_, jid_length⟩
  have hkey : jidKey r1 = jidKey r2 := by rw [jidKey, jidKey, hid, ht, hu]
  rw [jid, jid, hkey]

def wRecA : Rec :=
  { MatchedObjectId := some "A1", PositionTitle := some "T",
    OrganizationName := some "O1", PositionLocationDisplay := .missing,
    ApplyURI := none, PositionURI := some "u", JobGrade := [],
    ApplicationCloseDate := none }

def wRecB : Rec := { wRecA with OrganizationName := some "O2" }

/-- C3 witness: two records differing only in organization share a
fingerprint, and fingerprints have length 24. -/
theorem C3_fingerprint_deterministic_witness :
    jid wRecA = jid wRecB ∧ ∀ r : Rec, (jid r).length = 24 :=
  C3_fingerprint_deterministic wRecA wRecB rfl rfl rfl

/-- C4: attempts run sequentially and the fetcher returns the parsed body
of the first HTTP-200 response immediately: when attempts 1..k-1 fail and
attempt k (within maxAttempts) returns 200, exactly k attempts are
performed and exactly k-1 sleeps, the t-th sleep lasting
backoff * 2 ^ (t - 1) seconds; no sleep follows the final attempt. -/
theorem C4_retry_backoff (oracle : Nat → AttemptOutcome) (attempts backoff k : Nat)
    (d : SearchData) (hk1 : 1 ≤ k) (hk : k ≤ attempts)
    (hfail : ∀ j, 1 ≤ j → j < k → failedOutcome (oracle j) = true)
    (hsucc : oracle k = .success d) :
    fetch_with_retries oracle attempts backoff =
      { result := .ok d, attemptsMade := k,
        sleeps := (List.range (k - 1)).map (fun t => backoff * 2 ^ t) } :=
  fetch_succeeds_at oracle attempts backoff k d hk1 hk hfail hsucc

/-- C4 witness: a fetch failing twice then succeeding makes exactly 3
attempts and sleeps exactly twice, 5 then 10 seconds. -/
theorem C4_retry_backoff_witness :
    fetch_with_retries wOracleFF 3 5 =
      { result := .ok wData, attemptsMade := 3, sleeps := [5, 10] } := by
  have h := C4_retry_backoff wOracleFF 3 5 3 wData (by decide) (by decide)
    (fun j h1 h2 => by
      have hne : (j == 3) = false := by simp; omega
      simp [wOracleFF, hne, failedOutcome])
    (by simp [wOracleFF])
  rw [h]
  rfl

/-- C10: within a single run at most one notification is sent per distinct
fingerprint: the accepted list (one notification per element, in response
order) has pairwise distinct fingerprints, because each accepted
fingerprint is inserted into the in-memory seen map (second conjunct)
before the next item is examined. -/
theorem C10_no_dup_notify (items : List Item) (seen0 : SeenStore) (now : Nat) :
    ((processItems items seen0 now).accepted.map Prod.fst).Nodup ∧
    ∀ p ∈ (processItems items seen0 now).accepted,
      seenMem p.1 (processItems items seen0 now).seen = true := by
  obtain ⟨ns, h1, h2, h3, h4, h5⟩ := foldl_struct now items ⟨[], seen0, 0⟩
  rw [processItems]
  constructor
  · rw [h1]
    simpa using h4
  · intro p hp
    rw [h1] at hp
    simp only [List.nil_append] at hp
    rw [seenMem_iff, h3]
    exact List.mem_append_right _ (List.mem_map_of_mem Prod.fst hp)

set_option maxRecDepth 1000000 in
/-- C10 witness: a one-item run accepts one posting, with distinct keys
and that key recorded in the store before the loop moves on. -/
theorem C10_no_dup_notify_witness :
    ((processItems [wItem1] [] 0).accepted.map Prod.fst).Nodup ∧
    seenMem (jid (recOf wItem1 wDesc)) (processItems [wItem1] [] 0).seen = true := by
  have h := C10_no_dup_notify [wItem1] [] 0
  refine ⟨h.1, h.2 (jid (recOf wItem1 wDesc), recOf wItem1 wDesc) ?_⟩
  decide

/-- C5: when every attempt fails, the fetcher raises an error carrying the
last recorded error message (attempting all attempts, sleeping after each
failed attempt except the final one) and returns no result; the run then
emits exactly the one fetch-failure notification, hence no posting
notification, no seen-file load and no state write. -/
theorem C5_fetch_exhausted (cfg : Config) (oracle : Nat → AttemptOutcome)
    (seenFile : Option SeenStore) (now : Nat) (delivery : Nat → DeliveryOutcome)
    (hua : truthyS cfg.userAgent = true) (hkey : truthyS cfg.apiKey = true)
    (hflag : cfg.notifyFetchFailure = true) (ha : 1 ≤ cfg.retryAttempts)
    (hfail : ∀ j, 1 ≤ j → j ≤ cfg.retryAttempts → failedOutcome (oracle j) = true) :
    fetch_with_retries oracle cfg.retryAttempts cfg.retryBackoff =
      { result := .error (pyOrStr (some (errOf (oracle cfg.retryAttempts))) "Unknown fetch error"),
        attemptsMade := cfg.retryAttempts,
        sleeps := (List.range (cfg.retryAttempts - 1)).map (fun t => cfg.retryBackoff * 2 ^ t) } ∧
    (run_once cfg oracle seenFile now delivery).events =
      [Event.notify (fetchFailHead ++
        pyOrStr (some (errOf (oracle cfg.retryAttempts))) "Unknown fetch error")] := by
  have hfetch := fetch_exhausts oracle cfg.retryAttempts cfg.retryBackoff ha hfail
  refine ⟨hfetch, ?_⟩
  have hres : (fetch_with_retries oracle cfg.retryAttempts cfg.retryBackoff).result =
      .error (pyOrStr (some (errOf (oracle cfg.retryAttempts))) "Unknown fetch error") := by
    rw [hfetch]
  simp [run_once, hua, hkey, hres, hflag]

/-- C5 witness: three transport errors lead to the error "boom", three
attempts, two sleeps, and a single fetch-failure notification. -/
theorem C5_fetch_exhausted_witness :
    fetch_with_retries wOracleFail 3 5 =
      { result := .error "boom", attemptsMade := 3, sleeps := [5, 10] } ∧
    (run_once wCfg wOracleFail none 0 wDelivery).events =
      [Event.notify (fetchFailHead ++ "boom")] := by
  have h := C5_fetch_exhausted wCfg wOracleFail none 0 wDelivery rfl rfl rfl (by decide)
    (fun j _ _ => rfl)
  exact ⟨h.1.trans rfl, h.2.trans rfl⟩

/-- C7: a response with zero total count or an empty or absent item list
makes the run emit exactly the no-results notification (when configured
on) and stop: no seen-file load, no posting notification, no state write. -/
theorem C7_zero_results (cfg : Config) (oracle : Nat → AttemptOutcome)
    (seenFile : Option SeenStore) (now : Nat) (delivery : Nat → DeliveryOutcome)
    (d : SearchData)
    (hua : truthyS cfg.userAgent = true) (hkey : truthyS cfg.apiKey = true)
    (hres : (fetch_with_retries oracle cfg.retryAttempts cfg.retryBackoff).result = .ok d)
    (hz : totalOf d = 0 ∨ itemsOf d = [])
    (hflag : cfg.notifyZeroResults = true) :
    (run_once cfg oracle seenFile now delivery).events = [Event.notify zeroResultsMsg] := by
  simp [run_once, hua, hkey, hres, hflag]
  rw [if_pos hz]

/-- C7 witness: an explicit zero count with an empty list fires the
no-results notification and nothing else. -/
theorem C7_zero_results_witness :
    (run_once wCfg (fun _ => .success ⟨some ⟨some [], some 0⟩⟩) none 0 wDelivery).events =
      [Event.notify zeroResultsMsg] :=
  C7_zero_results wCfg (fun _ => .success ⟨some ⟨some [], some 0⟩⟩) none 0 wDelivery
    ⟨some ⟨some [], some 0⟩⟩ rfl rfl rfl (Or.inl rfl) rfl

/-- C9: the time gate converts the instant to the America/Los_Angeles
zone (modelled by the offset the zoneinfo database gives for that
instant) and is true exactly when the local hour is 20; with the gate
disabled by configuration, the pipeline runs whatever the time is. -/
theorem C9_time_gate (offsetAt : Int → Int) (wall : Int) (cfg : Config)
    (oracle : Nat → AttemptOutcome) (seenFile : Option SeenStore) (now : Nat)
    (delivery : Nat → DeliveryOutcome) :
    (guard_local_8pm offsetAt wall = true ↔ localHour (offsetAt wall) wall = 20) ∧
    (cfg.enforceLocal8pm = false →
      mainEntry cfg offsetAt wall oracle seenFile now delivery =
        some (run_once cfg oracle seenFile now delivery)) := by
  constructor
  · simp [guard_local_8pm]
  · intro h
    simp [mainEntry, h]

/-- C9 witness: at an instant whose Los Angeles offset is UTC-7 and whose
local hour is 20 the gate is true; with the gate disabled the entry point
runs the pipeline at an arbitrary instant. -/
theorem C9_time_gate_witness :
    guard_local_8pm (fun _ => (-25200 : Int)) 97200 = true ∧
    mainEntry { wCfg with enforceLocal8pm := false } (fun _ => (-25200 : Int)) 5 wOracleOk
        none 0 wDelivery =
      some (run_once { wCfg with enforceLocal8pm := false } wOracleOk none 0 wDelivery) := by
  constructor
  · exact (C9_time_gate (fun _ => (-25200 : Int)) 97200 wCfg wOracleOk none 0 wDelivery).1.mpr
      (by decide)
  · exact (C9_time_gate (fun _ => (-25200 : Int)) 5 { wCfg with enforceLocal8pm := false }
      wOracleOk none 0 wDelivery).2 rfl

/-- C2: re-running with an unchanged API response on the store left by the
first run accepts nothing: every fingerprint is already present, so each
item is skipped before any further processing, the second loop sends no
posting notification, leaves the store untouched, and the second run only
loads state and (when configured) sends the no-new-items status message. -/
theorem C2_rerun_idempotent (cfg : Config) (oracle : Nat → AttemptOutcome)
    (seenFile : Option SeenStore) (now1 now2 : Nat) (delivery : Nat → DeliveryOutcome)
    (d : SearchData)
    (hua : truthyS cfg.userAgent = true) (hkey : truthyS cfg.apiKey = true)
    (hres : (fetch_with_retries oracle cfg.retryAttempts cfg.retryBackoff).result = .ok d)
    (hnz : ¬(totalOf d = 0 ∨ itemsOf d = [])) :
    (processItems (itemsOf d)
      (processItems (itemsOf d) (load_seen seenFile) now1).seen now2).accepted = [] ∧
    (processItems (itemsOf d)
      (processItems (itemsOf d) (load_seen seenFile) now1).seen now2).newCount = 0 ∧
    (processItems (itemsOf d)
      (processItems (itemsOf d) (load_seen seenFile) now1).seen now2).seen =
      (processItems (itemsOf d) (load_seen seenFile) now1).seen ∧
    (run_once cfg oracle (some (processItems (itemsOf d) (load_seen seenFile) now1).seen)
        now2 delivery).events =
      Event.load :: (if cfg.notifyNoNewItems then [Event.notify noNewMsg] else []) := by
  have hcover : ∀ item ∈ itemsOf d, ∀ mo, item.MatchedObjectDescriptor = some mo →
      seenMem (jid (recOf item mo))
        (processItems (itemsOf d) (load_seen seenFile) now1).seen = true := by
    intro item hmem mo hmo
    exact foldl_covers now1 (itemsOf d) ⟨[], load_seen seenFile, 0⟩ item mo hmem hmo
  have hp2 : processItems (itemsOf d)
      (processItems (itemsOf d) (load_seen seenFile) now1).seen now2 =
      ⟨[], (processItems (itemsOf d) (load_seen seenFile) now1).seen, 0⟩ := by
    rw [processItems]
    exact foldl_of_all_seen now2 (itemsOf d)
      ⟨[], (processItems (itemsOf d) (load_seen seenFile) now1).seen, 0⟩
      (fun item hmem mo hmo => hcover item hmem mo hmo)
  refine ⟨by rw [hp2], by rw [hp2], by rw [hp2], ?_⟩
  have hload : load_seen (some (processItems (itemsOf d) (load_seen seenFile) now1).seen) =
      (processItems (itemsOf d) (load_seen seenFile) now1).seen := rfl
  simp only [run_once, hua, hkey, hres, hload, hp2]
  simp [hnz]

/-- C2 witness: a second run over the same one-item response and the
store produced by the first accepts nothing and only reports no new
items. -/
theorem C2_rerun_idempotent_witness :
    (processItems (itemsOf wData)
      (processItems (itemsOf wData) (load_seen none) 0).seen 1).accepted = [] ∧
    (processItems (itemsOf wData)
      (processItems (itemsOf wData) (load_seen none) 0).seen 1).newCount = 0 ∧
    (processItems (itemsOf wData)
      (processItems (itemsOf wData) (load_seen none) 0).seen 1).seen =
      (processItems (itemsOf wData) (load_seen none) 0).seen ∧
    (run_once wCfg wOracleOk (some (processItems (itemsOf wData) (load_seen none) 0).seen)
        1 wDelivery).events =
      Event.load :: (if wCfg.notifyNoNewItems then [Event.notify noNewMsg] else []) :=
  C2_rerun_idempotent wCfg wOracleOk none 0 1 wDelivery wData rfl rfl rfl (by decide)

/-- Shape of the save events of a run: either none at all, or the whole
event list is a save-free prefix followed by exactly one save, emitted
with a positive new-item count. -/
theorem run_once_save_shape (cfg : Config) (oracle : Nat → AttemptOutcome)
    (seenFile : Option SeenStore) (now : Nat) (delivery : Nat → DeliveryOutcome) :
    (run_once cfg oracle seenFile now delivery).events.filter isSave = [] ∨
    (∃ pre s, (run_once cfg oracle seenFile now delivery).events = pre ++ [Event.save s] ∧
      (∀ e ∈ pre, isSave e = false) ∧
      1 ≤ (run_once cfg oracle seenFile now delivery).newCount) := by
  by_cases hcred : truthyS cfg.userAgent = false ∨ truthyS cfg.apiKey = false
  · left
    simp [run_once, hcred, isSave]
  · cases hres : (fetch_with_retries oracle cfg.retryAttempts cfg.retryBackoff).result with
    | error e =>
        left
        by_cases hflag : cfg.notifyFetchFailure <;>
          simp [run_once, hcred, hres, hflag, isSave]
    | ok d =>
        by_cases hz : totalOf d = 0 ∨ itemsOf d = []
        · left
          by_cases hflag : cfg.notifyZeroResults <;>
            simp [run_once, hcred, hres, hz, hflag, isSave]
        · by_cases hcnt : (processItems (itemsOf d) (load_seen seenFile) now).newCount = 0
          · left
            by_cases hflag : cfg.notifyNoNewItems <;>
              simp [run_once, hcred, hres, hz, hcnt, hflag, isSave, List.filter_map,
                Function.comp]
          · right
            refine ⟨Event.load :: (processItems (itemsOf d) (load_seen seenFile) now).accepted.map
                (fun p => Event.notify (format_msg p.2)),
              (processItems (itemsOf d) (load_seen seenFile) now).seen, ?_, ?_, ?_⟩
            · simp [run_once, hcred, hres, hz, hcnt]
            · intro e he
              rcases List.mem_cons.mp he with heq | hmem
              · rw [heq]; rfl
              · obtain ⟨p, _, hpe⟩ := List.mem_map.mp hmem
                rw [← hpe]; rfl
            · simp [run_once, hcred, hres, hz, hcnt]
              omega

/-- C6: the seen file is written at most once per run, only with at least
one accepted posting, and only after every notification of the run (the
save event, when present, is last, preceded only by non-save events); the
write itself goes through the temp file and the atomic rename, so
stopping before the rename leaves the real file untouched. -/
theorem C6_atomic_persist_once (cfg : Config) (oracle : Nat → AttemptOutcome)
    (seenFile : Option SeenStore) (now : Nat) (delivery : Nat → DeliveryOutcome) :
    ((run_once cfg oracle seenFile now delivery).events.filter isSave).length ≤ 1 ∧
    (∀ s, Event.save s ∈ (run_once cfg oracle seenFile now delivery).events →
      1 ≤ (run_once cfg oracle seenFile now delivery).newCount ∧
      ∃ pre, (run_once cfg oracle seenFile now delivery).events = pre ++ [Event.save s] ∧
        ∀ e ∈ pre, isSave e = false) ∧
    (∀ fs data, (writeTmp fs data).real = fs.real) ∧
    (∀ fs data, save_seen fs data = { real := some data, tmp := none }) := by
  refine ⟨?_, ?_, fun fs data => rfl, fun fs data => rfl⟩
  · rcases run_once_save_shape cfg oracle seenFile now delivery with h | ⟨pre, s, he, hpre, _⟩
    · rw [h]
      decide
    · rw [he, List.filter_append, List.filter_eq_nil_iff.mpr
        (fun e hmem => by rw [hpre e hmem]; decide)]
      simp [isSave]
  · intro s hs
    rcases run_once_save_shape cfg oracle seenFile now delivery with h | ⟨pre, s', he, hpre, hc⟩
    · exfalso
      have : Event.save s ∈ (run_once cfg oracle seenFile now delivery).events.filter isSave :=
        List.mem_filter.mpr ⟨hs, rfl⟩
      rw [h] at this
      exact absurd this (List.not_mem_nil _)
    · have hss : s = s' := by
        rw [he] at hs
        rcases List.mem_append.mp hs with hmem | hmem
        · have hfalse := hpre _ hmem
          simp [isSave] at hfalse
        · rw [List.mem_singleton] at hmem
          exact Event.save.inj hmem
      subst hss
      exact ⟨hc, pre, he, hpre⟩

set_option maxRecDepth 1000000 in
/-- C6 witness: on a run that accepts one posting the filtered save
events number at most one, the new-item count is positive, the temp write
leaves the real file untouched and the full save replaces it. -/
theorem C6_atomic_persist_once_witness :
    1 ≤ (run_once wCfg wOracleOk none 0 wDelivery).newCount ∧
    (writeTmp ⟨some [], none⟩ []).real = some [] ∧
    save_seen ⟨none, some []⟩ [] = { real := some [], tmp := none } := by
  have h := C6_atomic_persist_once wCfg wOracleOk none 0 wDelivery
  refine ⟨(h.2.1 (processItems (itemsOf wData) (load_seen none) 0).seen ?_).1,
    h.2.2.1 ⟨some [], none⟩ [], h.2.2.2 ⟨none, some []⟩ []⟩
  decide

/-- The events, the new-item count and in particular any saved store of a
run do not depend on the webhook delivery outcomes: send_discord only
prints, so a failed delivery aborts nothing. -/
theorem run_once_delivery_irrelevant (cfg : Config) (oracle : Nat → AttemptOutcome)
    (seenFile : Option SeenStore) (now : Nat) (o1 o2 : Nat → DeliveryOutcome) :
    (run_once cfg oracle seenFile now o1).events = (run_once cfg oracle seenFile now o2).events ∧
    (run_once cfg oracle seenFile now o1).newCount =
      (run_once cfg oracle seenFile now o2).newCount := by
  by_cases hcred : truthyS cfg.userAgent = false ∨ truthyS cfg.apiKey = false
  · constructor <;> simp [run_once, hcred]
  · cases hres : (fetch_with_retries oracle cfg.retryAttempts cfg.retryBackoff).result with
    | error e => constructor <;> simp [run_once, hcred, hres]
    | ok d =>
        by_cases hz : totalOf d = 0 ∨ itemsOf d = []
        · constructor <;> simp [run_once, hcred, hres, hz]
        · by_cases hcnt : (processItems (itemsOf d) (load_seen seenFile) now).newCount = 0 <;>
            constructor <;> simp [run_once, hcred, hres, hz, hcnt]

/-- C8: a 204 or 2xx webhook response is success, anything else or a
transport exception is only logged (send_discord is total and returns the
log line); delivery outcomes change neither the events, nor the count,
nor the stores of a run, and an accepted posting is in the final seen
store whatever happens to its notification. -/
theorem C8_notify_failure_nonfatal (cfg : Config) (oracle : Nat → AttemptOutcome)
    (seenFile : Option SeenStore) (now : Nat) (o1 o2 : Nat → DeliveryOutcome) :
    ((run_once cfg oracle seenFile now o1).events = (run_once cfg oracle seenFile now o2).events ∧
      (run_once cfg oracle seenFile now o1).newCount =
        (run_once cfg oracle seenFile now o2).newCount) ∧
    (∀ wh body msg, truthyS wh = true →
      send_discord wh (.resp 204 body) msg = "[OK] Discord accepted message (204).") ∧
    (∀ wh body msg status, truthyS wh = true → ¬ status = 204 →
      200 ≤ status → status < 300 →
      send_discord wh (.resp status body) msg =
        "[OK] Discord HTTP " ++ toString status ++ ".") ∧
    (∀ wh body msg status, truthyS wh = true → ¬ status = 204 →
      ¬ (200 ≤ status ∧ status < 300) →
      send_discord wh (.resp status body) msg =
        "[WARN] Discord webhook HTTP " ++ toString status ++ ": " ++ strTake body 200) ∧
    (∀ wh m msg, truthyS wh = true →
      send_discord wh (.exn m) msg = "[WARN] Discord send failed: " ++ m) ∧
    (∀ (items : List Item) (seen0 : SeenStore) (tnow : Nat),
      ∀ p ∈ (processItems items seen0 tnow).accepted,
        seenMem p.1 (processItems items seen0 tnow).seen = true) := by
  refine ⟨run_once_delivery_irrelevant cfg oracle seenFile now o1 o2, ?_, ?_, ?_, ?_, ?_⟩
  · intro wh body msg h
    simp [send_discord, h]
  · intro wh body msg status h h204 hlo hhi
    rw [send_discord, if_neg (by simp [h]), if_neg h204, if_pos ⟨hlo, hhi⟩]
  · intro wh body msg status h h204 h2xx
    rw [send_discord, if_neg (by simp [h]), if_neg h204, if_neg h2xx]
  · intro wh m msg h
    simp [send_discord, h]
  · intro items seen0 tnow p hp
    obtain ⟨ns, h1, _h2, h3, _h4, _h5⟩ := foldl_struct tnow items ⟨[], seen0, 0⟩
    rw [processItems] at hp ⊢
    rw [h1] at hp
    simp only [List.nil_append] at hp
    rw [seenMem_iff, h3]
    exact List.mem_append_right _ (List.mem_map_of_mem Prod.fst hp)

/-- C8 witness: a 500 response changes only the log line, not the run
events, and is classified as a warning. -/
theorem C8_notify_failure_nonfatal_witness :
    (run_once wCfg wOracleOk none 0 (fun _ => .resp 500 "oops")).events =
      (run_once wCfg wOracleOk none 0 wDelivery).events ∧
    send_discord (some "hook") (.resp 500 "oops") "m" =
      "[WARN] Discord webhook HTTP 500: oops" := by
  have h := C8_notify_failure_nonfatal wCfg wOracleOk none 0 (fun _ => .resp 500 "oops") wDelivery
  refine ⟨h.1.1, ?_⟩
  have h2 := h.2.2.2.1 (some "hook") "oops" "m" 500 rfl (by decide) (by decide)
  exact h2.trans rfl

/-- C1: in the spec-modelled filtering pipeline, a five-item response with
two items already seen, two unseen items failing the inclusion filter and
one unseen item passing it accepts exactly that one item: one
notification is sent, the store grows by exactly one entry, the state
file is written (the save event closes the run), and the two filtered-out
items are not added to the store. -/
theorem C1_filter_scenario (filterRule : Rec → Bool) (i1 i2 i3 i4 i5 : Item)
    (mo1 mo2 mo3 mo4 mo5 : Descriptor) (seen0 : SeenStore) (now : Nat)
    (hm1 : i1.MatchedObjectDescriptor = some mo1)
    (hm2 : i2.MatchedObjectDescriptor = some mo2)
    (hm3 : i3.MatchedObjectDescriptor = some mo3)
    (hm4 : i4.MatchedObjectDescriptor = some mo4)
    (hm5 : i5.MatchedObjectDescriptor = some mo5)
    (hs1 : seenMem (jid (recOf i1 mo1)) seen0 = true)
    (hs2 : seenMem (jid (recOf i2 mo2)) seen0 = true)
    (hs3 : seenMem (jid (recOf i3 mo3)) seen0 = false)
    (hs4 : seenMem (jid (recOf i4 mo4)) seen0 = false)
    (hs5 : seenMem (jid (recOf i5 mo5)) seen0 = false)
    (hf3 : filterRule (recOf i3 mo3) = false)
    (hf4 : filterRule (recOf i4 mo4) = false)
    (hf5 : filterRule (recOf i5 mo5) = true)
    (hne3 : jid (recOf i3 mo3) ≠ jid (recOf i5 mo5))
    (hne4 : jid (recOf i4 mo4) ≠ jid (recOf i5 mo5)) :
    processResultsSpec filterRule [i1, i2, i3, i4, i5] seen0 now =
      ⟨[(jid (recOf i5 mo5), recOf i5 mo5)],
        seen0 ++ [(jid (recOf i5 mo5), seenEntryOf (recOf i5 mo5) now)], 1⟩ ∧
    notifyAndPersistSpec (processResultsSpec filterRule [i1, i2, i3, i4, i5] seen0 now) =
      [Event.notify (format_msg (recOf i5 mo5)),
       Event.save (seen0 ++ [(jid (recOf i5 mo5), seenEntryOf (recOf i5 mo5) now)])] ∧
    (seen0 ++ [(jid (recOf i5 mo5), seenEntryOf (recOf i5 mo5) now)]).length =
      seen0.length + 1 ∧
    seenMem (jid (recOf i3 mo3))
      (seen0 ++ [(jid (recOf i5 mo5), seenEntryOf (recOf i5 mo5) now)]) = false ∧
    seenMem (jid (recOf i4 mo4))
      (seen0 ++ [(jid (recOf i5 mo5), seenEntryOf (recOf i5 mo5) now)]) = false := by
  have hmem_append : ∀ (k k' : String) (v : SeenEntry) (s : SeenStore),
      seenMem k (s ++ [(k', v)]) = (seenMem k s || (k' == k)) := by
    intro k k' v s
    simp [seenMem, List.any_append]
  have e1 : stepItemSpec filterRule now ⟨[], seen0, 0⟩ i1 = ⟨[], seen0, 0⟩ := by
    simp [stepItemSpec, hm1, hs1]
  have e2 : stepItemSpec filterRule now ⟨[], seen0, 0⟩ i2 = ⟨[], seen0, 0⟩ := by
    simp [stepItemSpec, hm2, hs2]
  have e3 : stepItemSpec filterRule now ⟨[], seen0, 0⟩ i3 = ⟨[], seen0, 0⟩ := by
    simp [stepItemSpec, hm3, hs3, hf3]
  have e4 : stepItemSpec filterRule now ⟨[], seen0, 0⟩ i4 = ⟨[], seen0, 0⟩ := by
    simp [stepItemSpec, hm4, hs4, hf4]
  have e5 : stepItemSpec filterRule now ⟨[], seen0, 0⟩ i5 =
      ⟨[(jid (recOf i5 mo5), recOf i5 mo5)],
        seenInsert (jid (recOf i5 mo5)) (seenEntryOf (recOf i5 mo5) now) seen0, 1⟩ := by
    simp [stepItemSpec, hm5, hs5, hf5]
  have hrun : processResultsSpec filterRule [i1, i2, i3, i4, i5] seen0 now =
      ⟨[(jid (recOf i5 mo5), recOf i5 mo5)],
        seen0 ++ [(jid (recOf i5 mo5), seenEntryOf (recOf i5 mo5) now)], 1⟩ := by
    rw [processResultsSpec]
    simp only [List.foldl_cons, List.foldl_nil]
    rw [e1, e2, e3, e4, e5, seenInsert_of_not_mem _ _ _ hs5]
  refine ⟨hrun, ?_, by simp, ?_, ?_⟩
  · rw [hrun, notifyAndPersistSpec]
    simp
  · rw [hmem_append, hs3]
    simp [Ne.symm hne3]
  · rw [hmem_append, hs4]
    simp [Ne.symm hne4]

def wFilter : Rec → Bool := fun r => r.PositionTitle == some "Good"

def wMo (t : String) : Descriptor :=
  { PositionTitle := some t, OrganizationName := none,
    PositionLocationDisplay := .missing, ApplyURI := none, PositionURI := none,
    JobGrade := none, ApplicationCloseDate := none }

def wI (n t : String) : Item := ⟨some n, some (wMo t)⟩

def wSeenC1 : SeenStore :=
  [(jid (recOf (wI "1" "Good") (wMo "Good")), seenEntryOf (recOf (wI "1" "Good") (wMo "Good")) 0),
   (jid (recOf (wI "2" "Good") (wMo "Good")), seenEntryOf (recOf (wI "2" "Good") (wMo "Good")) 0)]

set_option maxRecDepth 1000000 in
/-- C1 witness: the 2-seen / 2-filtered / 1-accepted scenario on concrete
items: exactly one accepted posting with its save, and the filtered items
stay out of the store. -/
theorem C1_filter_scenario_witness :
    processResultsSpec wFilter
        [wI "1" "Good", wI "2" "Good", wI "3" "Bad", wI "4" "Bad", wI "5" "Good"] wSeenC1 7 =
      ⟨[(jid (recOf (wI "5" "Good") (wMo "Good")), recOf (wI "5" "Good") (wMo "Good"))],
        wSeenC1 ++ [(jid (recOf (wI "5" "Good") (wMo "Good")),
          seenEntryOf (recOf (wI "5" "Good") (wMo "Good")) 7)], 1⟩ ∧
    seenMem (jid (recOf (wI "3" "Bad") (wMo "Bad")))
      (wSeenC1 ++ [(jid (recOf (wI "5" "Good") (wMo "Good")),
        seenEntryOf (recOf (wI "5" "Good") (wMo "Good")) 7)]) = false := by
  have h := C1_filter_scenario wFilter
    (wI "1" "Good") (wI "2" "Good") (wI "3" "Bad") (wI "4" "Bad") (wI "5" "Good")
    (wMo "Good") (wMo "Good") (wMo "Bad") (wMo "Bad") (wMo "Good") wSeenC1 7
    rfl rfl rfl rfl rfl
    (by simp [seenMem, wSeenC1])
    (by simp [seenMem, wSeenC1])
    (by decide) (by decide) (by decide)
    (by decide) (by decide) (by decide)
    (by decide) (by decide)
  exact ⟨h.1, h.2.2.2.1⟩

end USAJobsWatch
